import Mathlib

/- Shallow embedding of codplayer's filesystem database layer
   (src/codplayer/db.py, Python 2).  Python strings are modelled as
   List Char, byte strings as List Nat with every element < 256. -/

namespace Codplayer

/-- Character table string.maketrans('._-', '+/=') applied via str.translate
    (db.py line 99): maps the Musicbrainz disc-id custom characters to the
    standard base64 characters. -/
def DISC_ID_TO_BASE64 (c : Char) : Char :=
  if c = '.' then '+' else if c = '_' then '/' else if c = '-' then '=' else c

/-- Character table string.maketrans('+/=', '._-') (db.py line 100). -/
def BASE64_TO_DISC_ID (c : Char) : Char :=
  if c = '+' then '.' else if c = '/' then '_' else if c = '=' then '-' else c

/-- Python str.translate with a one-to-one character table. -/
def pyTranslate (t : Char → Char) (s : List Char) : List Char := s.map t

/-- Python str.lower on one ASCII character. -/
def pyLowerChar (c : Char) : Char :=
  if 'A' ≤ c ∧ c ≤ 'Z' then Char.ofNat (c.toNat + 32) else c

/-- Python str.lower. -/
def pyLower (s : List Char) : List Char := s.map pyLowerChar

/-- Python str.upper on one ASCII character. -/
def pyUpperChar (c : Char) : Char :=
  if 'a' ≤ c ∧ c ≤ 'z' then Char.ofNat (c.toNat - 32) else c

/-- Python str.upper. -/
def pyUpper (s : List Char) : List Char := s.map pyUpperChar

/-- Value of a base64 alphabet character (CPython binascii table_a2b_base64;
    the pad character is handled separately by the decode loop). -/
def b64val (c : Char) : Option Nat :=
  if 'A' ≤ c ∧ c ≤ 'Z' then some (c.toNat - 65)
  else if 'a' ≤ c ∧ c ≤ 'z' then some (c.toNat - 71)
  else if '0' ≤ c ∧ c ≤ '9' then some (c.toNat + 4)
  else if c = '+' then some 62
  else if c = '/' then some 63
  else none

/-- base64 alphabet character for a 6-bit value (CPython table_b2a_base64). -/
def encChar (v : Nat) : Char :=
  if v < 26 then Char.ofNat (65 + v)
  else if v < 52 then Char.ofNat (71 + v)
  else if v < 62 then Char.ofNat (v - 4)
  else if v = 62 then '+' else '/'

/-- Whether binascii_find_valid counts a character as valid (a base64 table
    entry or the pad, whose table entry is 0 in CPython). -/
def b64ValidChar (c : Char) : Bool := (b64val c).isSome || c == '='

/-- binascii_find_valid(ascii_data, len, 1) as seen from the character after
    the current pad: the next valid character in the remaining input. -/
def findValid1 : List Char → Option Char
  | [] => none
  | c :: cs => if b64ValidChar c then some c else findValid1 cs

/-- CPython binascii.a2b_base64 main loop.  State: quadPos (number of accepted
    base64 characters mod 4), leftchar (value of the pending bits), leftbits
    (number of pending bits), acc (output bytes, in reverse).  Characters
    outside the alphabet are skipped; a pad at quadPos < 2, or at quadPos = 2
    not followed by another pad, is skipped; any other pad ends the input
    successfully, discarding pending bits.  If input ends with pending bits the
    padding was wrong and decoding fails (binascii.Error, which Python 2's
    base64.b64decode re-raises as TypeError), modelled as none. -/
def a2bAux : List Char → Nat → Nat → Nat → List Nat → Option (List Nat)
  | [], _, _, leftbits, acc => if leftbits = 0 then some acc.reverse else none
  | c :: cs, quadPos, leftchar, leftbits, acc =>
    if c = '=' then
      if quadPos < 2 ∨ (quadPos = 2 ∧ findValid1 cs ≠ some '=') then
        a2bAux cs quadPos leftchar leftbits acc
      else some acc.reverse
    else
      match b64val c with
      | none => a2bAux cs quadPos leftchar leftbits acc
      | some v =>
        if 8 ≤ leftbits + 6 then
          a2bAux cs ((quadPos + 1) % 4) ((leftchar * 64 + v) % 2 ^ (leftbits - 2))
            (leftbits - 2) ((leftchar * 64 + v) / 2 ^ (leftbits - 2) % 256 :: acc)
        else a2bAux cs ((quadPos + 1) % 4) (leftchar * 64 + v) (leftbits + 6) acc

/-- Python 2 base64.b64decode; none models the TypeError on incorrect padding. -/
def a2b_base64 (s : List Char) : Option (List Nat) := a2bAux s 0 0 0 []

/-- binascii.b2a_base64 without the trailing newline, i.e. base64.b64encode. -/
def b2a_base64 : List Nat → List Char
  | [] => []
  | [b1] => [encChar (b1 / 4), encChar (b1 % 4 * 16), '=', '=']
  | [b1, b2] => [encChar (b1 / 4), encChar (b1 % 4 * 16 + b2 / 16), encChar (b2 % 16 * 4), '=']
  | b1 :: b2 :: b3 :: bs =>
    encChar (b1 / 4) :: encChar (b1 % 4 * 16 + b2 / 16) ::
      encChar (b2 % 16 * 4 + b3 / 64) :: encChar (b3 % 64) :: b2a_base64 bs

/-- Upper-case hex digit, as produced by base64.b16encode (hexlify + upper). -/
def hexDigitUpper (n : Nat) : Char :=
  if n < 10 then Char.ofNat (48 + n) else Char.ofNat (55 + n)

/-- base64.b16encode: two upper-case hex digits per byte. -/
def b16encode : List Nat → List Char
  | [] => []
  | b :: bs => hexDigitUpper (b / 16) :: hexDigitUpper (b % 16) :: b16encode bs

/-- Value of an upper-case hex digit (the input is upper-cased first by
    b16decode's casefold handling). -/
def hexVal (c : Char) : Option Nat :=
  if '0' ≤ c ∧ c ≤ '9' then some (c.toNat - 48)
  else if 'A' ≤ c ∧ c ≤ 'F' then some (c.toNat - 55)
  else none

def b16decodeAux : List Char → Option (List Nat)
  | [] => some []
  | [_] => none
  | c1 :: c2 :: cs =>
    match hexVal c1, hexVal c2, b16decodeAux cs with
    | some h, some l, some bs => some ((h * 16 + l) :: bs)
    | _, _, _ => none

/-- base64.b16decode with casefold=True: upper-case the input, then reject any
    non-hex character or odd length (both TypeError, modelled as none). -/
def b16decode (s : List Char) : Option (List Nat) := b16decodeAux (pyUpper s)

/-- Database.disc_to_db_id (db.py 104-110): remap the custom characters,
    base64-decode, hex-encode lower-case.  none models the TypeError raised by
    base64.b64decode on incorrect padding. -/
def disc_to_db_id (disc_id : List Char) : Option (List Char) :=
  (a2b_base64 (pyTranslate DISC_ID_TO_BASE64 disc_id)).map fun bs => pyLower (b16encode bs)

/-- Database.db_to_disc_id (db.py 112-118): hex-decode (case-insensitive),
    base64-encode, remap the custom characters back. -/
def db_to_disc_id (db_id : List Char) : Option (List Char) :=
  (b16decode db_id).map fun bs => pyTranslate BASE64_TO_DISC_ID (b2a_base64 bs)

/-- The character class [0-9a-fA-F] of VALID_DB_ID_RE (db.py 102). -/
def hexChars : List Char := "0123456789abcdefABCDEF".toList

/-- The sixteen lower-case hex characters. -/
def lowerHexChars : List Char := "0123456789abcdef".toList

/-- Database.is_valid_db_id (db.py 120-122): re.match('^[0-9a-fA-F]{40}$', s)
    is not None.  In Python a dollar in a non-MULTILINE pattern matches at the
    end of the string or just before a newline at the end of the string, so the
    regex also accepts 40 hex characters followed by one final newline. -/
def is_valid_db_id (s : List Char) : Bool :=
  ((s.all fun c => hexChars.contains c) && s.length == 40)
    || ((s.take 40).all fun c => hexChars.contains c) && s.length == 41
          && s.drop 40 == ['\n']

/-- Database.bucket_for_db_id (db.py 125-127): db_id[0], a one-character
    string, returned unchanged. -/
def bucket_for_db_id (db_id : List Char) : List Char := db_id.take 1

/-- Database.filename_base (db.py 130-132): db_id[:8]. -/
def filename_base (db_id : List Char) : List Char := db_id.take 8

/-- Decoding table applied to an encoding-table character gives the value back. -/
theorem b64val_encChar : ∀ v, v < 64 → b64val (encChar v) = some v := by decide

/-- Encoding-table characters are never the pad character. -/
theorem encChar_ne_pad : ∀ v, v < 64 → encChar v ≠ '=' := by decide

/-- Encoding-table characters are never the three custom disc-id characters. -/
theorem encChar_ne_custom : ∀ v, v < 64 →
    encChar v ≠ '.' ∧ encChar v ≠ '_' ∧ encChar v ≠ '-' := by decide

/-- Unfolding of the a2b_base64 loop on an alphabet character. -/
theorem a2bAux_cons_val (c : Char) (v : Nat) (hc : c ≠ '=') (hv : b64val c = some v)
    (cs : List Char) (q lc lb : Nat) (acc : List Nat) :
    a2bAux (c :: cs) q lc lb acc =
      if 8 ≤ lb + 6 then
        a2bAux cs ((q + 1) % 4) ((lc * 64 + v) % 2 ^ (lb - 2)) (lb - 2)
          ((lc * 64 + v) / 2 ^ (lb - 2) % 256 :: acc)
      else a2bAux cs ((q + 1) % 4) (lc * 64 + v) (lb + 6) acc := by
  simp only [a2bAux]
  rw [if_neg hc, hv]

/-- Unfolding of the a2b_base64 loop on a pad that terminates the input. -/
theorem a2bAux_pad_stop (cs : List Char) (q lc lb : Nat) (acc : List Nat)
    (h : ¬ (q < 2 ∨ (q = 2 ∧ findValid1 cs ≠ some '='))) :
    a2bAux ('=' :: cs) q lc lb acc = some acc.reverse := by
  simp only [a2bAux]
  rw [if_pos trivial, if_neg h]

/-- Decoding a full 3-byte base64 group returns the three bytes. -/
theorem a2b_step3 (b1 b2 b3 : Nat) (h1 : b1 < 256) (h2 : b2 < 256) (h3 : b3 < 256)
    (rest : List Char) (acc : List Nat) :
    a2bAux (encChar (b1 / 4) :: encChar (b1 % 4 * 16 + b2 / 16) ::
        encChar (b2 % 16 * 4 + b3 / 64) :: encChar (b3 % 64) :: rest) 0 0 0 acc
      = a2bAux rest 0 0 0 (b3 :: b2 :: b1 :: acc) := by
  have hv1 : b1 / 4 < 64 := by omega
  have hv2 : b1 % 4 * 16 + b2 / 16 < 64 := by omega
  have hv3 : b2 % 16 * 4 + b3 / 64 < 64 := by omega
  have hv4 : b3 % 64 < 64 := by omega
  rw [a2bAux_cons_val _ _ (encChar_ne_pad _ hv1) (b64val_encChar _ hv1)]
  norm_num
  rw [a2bAux_cons_val _ _ (encChar_ne_pad _ hv2) (b64val_encChar _ hv2)]
  norm_num
  rw [a2bAux_cons_val _ _ (encChar_ne_pad _ hv3) (b64val_encChar _ hv3)]
  norm_num
  rw [a2bAux_cons_val _ _ (encChar_ne_pad _ hv4) (b64val_encChar _ hv4)]
  norm_num
  have e1 : (b1 / 4 * 64 + (b1 % 4 * 16 + b2 / 16)) / 16 % 256 = b1 := by omega
  have e2 : ((b1 / 4 * 64 + (b1 % 4 * 16 + b2 / 16)) % 16 * 64 + (b2 % 16 * 4 + b3 / 64)) / 4 % 256
      = b2 := by omega
  have e3 : (((b1 / 4 * 64 + (b1 % 4 * 16 + b2 / 16)) % 16 * 64 + (b2 % 16 * 4 + b3 / 64)) % 4 * 64
      + b3 % 64) % 256 = b3 := by omega
  have e4 : (((b1 / 4 * 64 + (b1 % 4 * 16 + b2 / 16)) % 16 * 64 + (b2 % 16 * 4 + b3 / 64)) % 4 * 64
      + b3 % 64) % 1 = 0 := by omega
  rw [e1, e2, e3, e4]

/-- Decoding a 1-byte base64 tail group (two characters and two pads). -/
theorem a2b_tail1 (b1 : Nat) (h1 : b1 < 256) (acc : List Nat) :
    a2bAux [encChar (b1 / 4), encChar (b1 % 4 * 16), '=', '='] 0 0 0 acc
      = some (acc.reverse ++ [b1]) := by
  have hv1 : b1 / 4 < 64 := by omega
  have hv2 : b1 % 4 * 16 < 64 := by omega
  rw [a2bAux_cons_val _ _ (encChar_ne_pad _ hv1) (b64val_encChar _ hv1)]
  norm_num
  rw [a2bAux_cons_val _ _ (encChar_ne_pad _ hv2) (b64val_encChar _ hv2)]
  norm_num
  rw [a2bAux_pad_stop _ _ _ _ _ (by decide)]
  simp only [List.reverse_cons]
  have e1 : (b1 / 4 * 64 + b1 % 4 * 16) / 16 % 256 = b1 := by omega
  rw [e1]

/-- Decoding a 2-byte base64 tail group (three characters and one pad). -/
theorem a2b_tail2 (b1 b2 : Nat) (h1 : b1 < 256) (h2 : b2 < 256) (acc : List Nat) :
    a2bAux [encChar (b1 / 4), encChar (b1 % 4 * 16 + b2 / 16), encChar (b2 % 16 * 4), '='] 0 0 0 acc
      = some (acc.reverse ++ [b1, b2]) := by
  have hv1 : b1 / 4 < 64 := by omega
  have hv2 : b1 % 4 * 16 + b2 / 16 < 64 := by omega
  have hv3 : b2 % 16 * 4 < 64 := by omega
  rw [a2bAux_cons_val _ _ (encChar_ne_pad _ hv1) (b64val_encChar _ hv1)]
  norm_num
  rw [a2bAux_cons_val _ _ (encChar_ne_pad _ hv2) (b64val_encChar _ hv2)]
  norm_num
  rw [a2bAux_cons_val _ _ (encChar_ne_pad _ hv3) (b64val_encChar _ hv3)]
  norm_num
  rw [a2bAux_pad_stop _ _ _ _ _ (by decide)]
  simp only [List.reverse_cons, List.append_assoc, List.singleton_append]
  have e1 : (b1 / 4 * 64 + (b1 % 4 * 16 + b2 / 16)) / 16 % 256 = b1 := by omega
  have e2 : ((b1 / 4 * 64 + (b1 % 4 * 16 + b2 / 16)) % 16 * 64 + b2 % 16 * 4) / 4 % 256 = b2 := by
    omega
  rw [e1, e2]

/-- base64 decoding inverts base64 encoding (bounded-length version used for
    the strong induction). -/
theorem a2b_b2a_aux : ∀ n B, B.length ≤ n → (∀ b ∈ B, b < 256) →
    ∀ acc, a2bAux (b2a_base64 B) 0 0 0 acc = some (acc.reverse ++ B) := by
  intro n
  induction n with
  | zero =>
    intro B hlen _ acc
    have hB : B = [] := List.eq_nil_of_length_eq_zero (Nat.le_zero.mp hlen)
    subst hB
    simp [b2a_base64, a2bAux]
  | succ n ih =>
    intro B hlen hB acc
    rcases B with _ | ⟨b1, _ | ⟨b2, _ | ⟨b3, bs⟩⟩⟩
    · simp [b2a_base64, a2bAux]
    · exact a2b_tail1 b1 (hB b1 (by simp)) acc
    · exact a2b_tail2 b1 b2 (hB b1 (by simp)) (hB b2 (by simp)) acc
    · have h1 : b1 < 256 := hB b1 (by simp)
      have h2 : b2 < 256 := hB b2 (by simp)
      have h3 : b3 < 256 := hB b3 (by simp)
      rw [b2a_base64, a2b_step3 b1 b2 b3 h1 h2 h3 (b2a_base64 bs) acc]
      rw [ih bs (by simp at hlen; omega) (fun b hb => hB b (by simp [hb])) (b3 :: b2 :: b1 :: acc)]
      simp

/-- base64 decoding inverts base64 encoding. -/
theorem a2b_b2a (B : List Nat) (hB : ∀ b ∈ B, b < 256) :
    a2b_base64 (b2a_base64 B) = some B := by
  have h := a2b_b2a_aux B.length B le_rfl hB []
  simpa [a2b_base64] using h

/-- Every byte produced by the a2b_base64 loop is below 256. -/
theorem a2bAux_bytes_lt : ∀ (s : List Char) (q lc lb : Nat) (acc : List Nat),
    (∀ b ∈ acc, b < 256) → ∀ B, a2bAux s q lc lb acc = some B → ∀ b ∈ B, b < 256 := by
  intro s
  induction s with
  | nil =>
    intro q lc lb acc hacc B hB b hb
    simp only [a2bAux] at hB
    split at hB
    · cases hB
      exact hacc b (List.mem_reverse.mp hb)
    · cases hB
  | cons c cs ih =>
    intro q lc lb acc hacc B hB b hb
    simp only [a2bAux] at hB
    split at hB
    · split at hB
      · exact ih q lc lb acc hacc B hB b hb
      · cases hB
        exact hacc b (List.mem_reverse.mp hb)
    · split at hB
      · exact ih q lc lb acc hacc B hB b hb
      · rename_i v hv
        split at hB
        · refine ih _ _ _ _ ?_ B hB b hb
          intro x hx
          rcases List.mem_cons.mp hx with h | h
          · subst h
            exact Nat.mod_lt _ (by omega)
          · exact hacc x h
        · exact ih _ _ _ _ hacc B hB b hb

/-- Every character of a base64 encoding is the pad or an alphabet character. -/
theorem b2a_mem : ∀ n B, B.length ≤ n → (∀ b ∈ B, b < 256) →
    ∀ c ∈ b2a_base64 B, c = '=' ∨ ∃ v, v < 64 ∧ c = encChar v := by
  intro n
  induction n with
  | zero =>
    intro B hlen _ c hc
    have hB : B = [] := List.eq_nil_of_length_eq_zero (Nat.le_zero.mp hlen)
    subst hB
    simp [b2a_base64] at hc
  | succ n ih =>
    intro B hlen hB c hc
    rcases B with _ | ⟨b1, _ | ⟨b2, _ | ⟨b3, bs⟩⟩⟩
    · simp [b2a_base64] at hc
    · have h1 : b1 < 256 := hB b1 (by simp)
      simp only [b2a_base64, List.mem_cons, List.not_mem_nil, or_false] at hc
      rcases hc with h | h | h | h
      · exact Or.inr ⟨b1 / 4, by omega, h⟩
      · exact Or.inr ⟨b1 % 4 * 16, by omega, h⟩
      · exact Or.inl h
      · exact Or.inl h
    · have h1 : b1 < 256 := hB b1 (by simp)
      have h2 : b2 < 256 := hB b2 (by simp)
      simp only [b2a_base64, List.mem_cons, List.not_mem_nil, or_false] at hc
      rcases hc with h | h | h | h
      · exact Or.inr ⟨b1 / 4, by omega, h⟩
      · exact Or.inr ⟨b1 % 4 * 16 + b2 / 16, by omega, h⟩
      · exact Or.inr ⟨b2 % 16 * 4, by omega, h⟩
      · exact Or.inl h
    · have h1 : b1 < 256 := hB b1 (by simp)
      have h2 : b2 < 256 := hB b2 (by simp)
      have h3 : b3 < 256 := hB b3 (by simp)
      simp only [b2a_base64, List.mem_cons] at hc
      rcases hc with h | h | h | h | h
      · exact Or.inr ⟨b1 / 4, by omega, h⟩
      · exact Or.inr ⟨b1 % 4 * 16 + b2 / 16, by omega, h⟩
      · exact Or.inr ⟨b2 % 16 * 4 + b3 / 64, by omega, h⟩
      · exact Or.inr ⟨b3 % 64, by omega, h⟩
      · exact ih bs (by simp at hlen; omega) (fun b hb => hB b (by simp [hb])) c h

/-- Characters other than the three custom ones survive the custom-to-base64
    remap composed with the base64-to-custom remap. -/
theorem translate_char_roundtrip (c : Char) (h1 : c ≠ '.') (h2 : c ≠ '_') (h3 : c ≠ '-') :
    DISC_ID_TO_BASE64 (BASE64_TO_DISC_ID c) = c := by
  by_cases e1 : c = '+'
  · subst e1; decide
  by_cases e2 : c = '/'
  · subst e2; decide
  by_cases e3 : c = '='
  · subst e3; decide
  simp [BASE64_TO_DISC_ID, DISC_ID_TO_BASE64, e1, e2, e3, h1, h2, h3]

/-- The two remap tables cancel on a base64 encoding. -/
theorem translate_b2a (B : List Nat) (hB : ∀ b ∈ B, b < 256) :
    pyTranslate DISC_ID_TO_BASE64 (pyTranslate BASE64_TO_DISC_ID (b2a_base64 B))
      = b2a_base64 B := by
  unfold pyTranslate
  rw [List.map_map]
  have h : ∀ c ∈ b2a_base64 B,
      (DISC_ID_TO_BASE64 ∘ BASE64_TO_DISC_ID) c = id c := by
    intro c hc
    rcases b2a_mem B.length B le_rfl hB c hc with h | ⟨v, hv, rfl⟩
    · subst h; decide
    · obtain ⟨n1, n2, n3⟩ := encChar_ne_custom v hv
      exact translate_char_roundtrip _ n1 n2 n3
  rw [List.map_congr_left h, List.map_id]

/-- Facts about one lower-case hex character: upper-casing then reading it as
    an upper-case hex digit gives a value below 16, and re-rendering that value
    as a lower-case hex digit gives the character back. -/
theorem lowerHex_char_spec : ∀ c ∈ lowerHexChars,
    (match hexVal (pyUpperChar c) with
     | some n => decide (n < 16) && (pyLowerChar (hexDigitUpper n) == c)
     | none => false) = true := by decide

/-- Lower-case hex digits of a byte are lower-case hex characters. -/
theorem byte_hex_chars : ∀ n, n < 16 → pyLowerChar (hexDigitUpper n) ∈ lowerHexChars := by decide

/-- A string of lower-case hex characters of even length hex-decodes, and
    hex-encoding the bytes (lower-cased) gives the string back (bounded-length
    version used for the strong induction). -/
theorem b16_roundtrip_aux : ∀ n y, y.length ≤ n → (∀ c ∈ y, c ∈ lowerHexChars) →
    y.length % 2 = 0 →
    ∃ B, b16decode y = some B ∧ pyLower (b16encode B) = y ∧ ∀ b ∈ B, b < 256 := by
  intro n
  induction n with
  | zero =>
    intro y hlen _ _
    have hy : y = [] := List.eq_nil_of_length_eq_zero (Nat.le_zero.mp hlen)
    subst hy
    exact ⟨[], rfl, rfl, by simp⟩
  | succ n ih =>
    intro y hlen hhex hev
    rcases y with _ | ⟨c1, _ | ⟨c2, rest⟩⟩
    · exact ⟨[], rfl, rfl, by simp⟩
    · simp at hev
    · have hc1 : c1 ∈ lowerHexChars := hhex c1 (by simp)
      have hc2 : c2 ∈ lowerHexChars := hhex c2 (by simp)
      have s1 := lowerHex_char_spec c1 hc1
      have s2 := lowerHex_char_spec c2 hc2
      cases h1 : hexVal (pyUpperChar c1) with
      | none => rw [h1] at s1; simp at s1
      | some n1 =>
        rw [h1] at s1
        simp only [Bool.and_eq_true, decide_eq_true_eq, beq_iff_eq] at s1
        obtain ⟨hn1, hq1⟩ := s1
        cases h2 : hexVal (pyUpperChar c2) with
        | none => rw [h2] at s2; simp at s2
        | some n2 =>
          rw [h2] at s2
          simp only [Bool.and_eq_true, decide_eq_true_eq, beq_iff_eq] at s2
          obtain ⟨hn2, hq2⟩ := s2
          obtain ⟨Bs, hdec, henc, hlt⟩ := ih rest (by simp at hlen; omega)
            (fun c hc => hhex c (by simp [hc])) (by simp at hev ⊢; omega)
          refine ⟨(n1 * 16 + n2) :: Bs, ?_, ?_, ?_⟩
          · simp only [b16decode, pyUpper, List.map_cons] at hdec ⊢
            simp only [b16decodeAux, h1, h2, hdec]
          · simp only [b16encode, pyLower, List.map_cons]
            have d1 : (n1 * 16 + n2) / 16 = n1 := by omega
            have d2 : (n1 * 16 + n2) % 16 = n2 := by omega
            rw [d1, d2, hq1, hq2]
            simp only [pyLower] at henc
            rw [henc]
          · intro b hb
            rcases List.mem_cons.mp hb with h | h
            · subst h; omega
            · exact hlt b h

/-- A string of lower-case hex characters of even length hex-decodes, and
    hex-encoding the bytes (lower-cased) gives the string back. -/
theorem b16_roundtrip (y : List Char) (hhex : ∀ c ∈ y, c ∈ lowerHexChars)
    (hev : y.length % 2 = 0) :
    ∃ B, b16decode y = some B ∧ pyLower (b16encode B) = y ∧ ∀ b ∈ B, b < 256 :=
  b16_roundtrip_aux y.length y le_rfl hhex hev


/-- Lower-cased hex rendering of bytes consists of lower-case hex characters. -/
theorem pyLower_b16encode_mem : ∀ B, (∀ b ∈ B, b < 256) →
    ∀ c ∈ pyLower (b16encode B), c ∈ lowerHexChars := by
  intro B
  induction B with
  | nil => intro _ c hc; simp [pyLower, b16encode] at hc
  | cons b bs ih =>
    intro hB c hc
    have hb : b < 256 := hB b (by simp)
    simp only [b16encode, pyLower, List.map_cons, List.mem_cons] at hc
    rcases hc with h | h | h
    · subst h; exact byte_hex_chars (b / 16) (by omega)
    · subst h; exact byte_hex_chars (b % 16) (by omega)
    · exact ih (fun x hx => hB x (by simp [hx])) c (by simpa [pyLower] using h)

/-- Length of the lower-cased hex rendering of bytes. -/
theorem pyLower_b16encode_length : ∀ B : List Nat, (pyLower (b16encode B)).length = 2 * B.length := by
  intro B
  induction B with
  | nil => rfl
  | cons b bs ih =>
    simp only [b16encode, pyLower, List.map_cons, List.length_cons] at ih ⊢
    omega

/-- Lower-case hex characters fix under str.lower. -/
theorem pyLowerChar_lowerHex : ∀ c ∈ lowerHexChars, pyLowerChar c = c := by decide

/-- Lower-case hex characters are in the class [0-9a-fA-F]. -/
theorem lowerHex_in_hex : ∀ c ∈ lowerHexChars, hexChars.contains c = true := by decide

/-- Shape of any successful disc_to_db_id output: lower-case hex characters,
    even length. -/
theorem disc_to_db_id_shape (x r : List Char) (h : disc_to_db_id x = some r) :
    (∀ c ∈ r, c ∈ lowerHexChars) ∧ r.length % 2 = 0 := by
  simp only [disc_to_db_id] at h
  cases hB : a2b_base64 (pyTranslate DISC_ID_TO_BASE64 x) with
  | none => rw [hB] at h; cases h
  | some B =>
    rw [hB] at h
    simp only [Option.map_some'] at h
    cases h
    have hlt : ∀ b ∈ B, b < 256 := a2bAux_bytes_lt _ 0 0 0 [] (by simp) B hB
    refine ⟨pyLower_b16encode_mem B hlt, ?_⟩
    rw [pyLower_b16encode_length B]
    omega

/-- C1 (corrected).  The codec round-trip as the spec states it fails: the
    claim quantifies over every identifier drawn from the valid alphabet and
    over every valid 40-hex storage identifier, but a non-canonical base64
    input such as "AB--" does not survive decode(encode(x)), and an upper-case
    valid storage identifier such as "A000...0" comes back lower-cased from
    encode(decode(y)).  Both failures at explicit concrete inputs. -/
theorem codec_roundtrip_cex :
    ((disc_to_db_id ['A', 'B', '-', '-']).bind db_to_disc_id = some ['A', 'A', '-', '-']
        ∧ (['A', 'A', '-', '-'] : List Char) ≠ ['A', 'B', '-', '-'])
      ∧ (is_valid_db_id ('A' :: List.replicate 39 '0') = true
          ∧ (db_to_disc_id ('A' :: List.replicate 39 '0')).bind disc_to_db_id
              = some ('a' :: List.replicate 39 '0')
          ∧ ('a' :: List.replicate 39 '0' : List Char) ≠ 'A' :: List.replicate 39 '0') := by
  decide

/-- C1 (amended).  The codec is a bijection between canonical forms: for every
    lower-case valid 40-hex storage identifier y, decode succeeds, and encode
    of its result returns exactly y; hence decode(encode(x)) = x for every
    logical identifier x in the image of decode, and encode(decode(y)) = y for
    every lower-case valid y. -/
theorem codec_roundtrip (y x : List Char) (hhex : ∀ c ∈ y, c ∈ lowerHexChars)
    (hlen : y.length = 40) (hdec : db_to_disc_id y = some x) :
    disc_to_db_id x = some y := by
  obtain ⟨B, hB, hencB, hlt⟩ := b16_roundtrip y hhex (by omega)
  rw [db_to_disc_id, hB] at hdec
  simp only [Option.map_some'] at hdec
  cases hdec
  simp only [disc_to_db_id]
  rw [translate_b2a B hlt, a2b_b2a B hlt]
  simp only [Option.map_some']
  rw [hencB]

/-- Witness for C1's amended round-trip at the all-zero storage identifier. -/
theorem codec_roundtrip_w :
    disc_to_db_id (List.replicate 27 'A' ++ ['-']) = some (List.replicate 40 '0') :=
  codec_roundtrip (List.replicate 40 '0') (List.replicate 27 'A' ++ ['-'])
    (by decide) (by decide) (by decide)

/-- C2 (corrected).  Encode accepts inputs whose decoded byte string is not 20
    bytes; "AAAA" is accepted and yields "000000", which fails the validity
    check, refuting "the output always satisfies is_valid_storage_id". -/
theorem encode_output_shape_cex :
    disc_to_db_id ['A', 'A', 'A', 'A'] = some ['0', '0', '0', '0', '0', '0']
      ∧ is_valid_db_id ['0', '0', '0', '0', '0', '0'] = false := by decide

/-- C2 (amended).  Every storage identifier returned by disc_to_db_id is a
    lower-case hexadecimal string of even length, and it satisfies
    is_valid_db_id exactly when its length is 40 (as it is for 28-character
    MusicBrainz-shaped inputs). -/
theorem encode_output_shape (x r : List Char) (h : disc_to_db_id x = some r) :
    (∀ c ∈ r, c ∈ lowerHexChars) ∧ r.length % 2 = 0
      ∧ (is_valid_db_id r = true ↔ r.length = 40) := by
  obtain ⟨hmem, hev⟩ := disc_to_db_id_shape x r h
  refine ⟨hmem, hev, ?_, ?_⟩
  · intro hv
    simp only [is_valid_db_id, Bool.or_eq_true, Bool.and_eq_true, beq_iff_eq,
      List.all_eq_true] at hv
    rcases hv with ⟨_, h40⟩ | ⟨⟨_, _⟩, hdrop⟩
    · exact h40
    · exfalso
      have hnl : '\n' ∈ r := List.drop_subset 40 r (by rw [hdrop]; simp)
      have := hmem '\n' hnl
      simp [lowerHexChars] at this
  · intro h40
    simp only [is_valid_db_id, Bool.or_eq_true, Bool.and_eq_true, beq_iff_eq,
      List.all_eq_true]
    exact Or.inl ⟨fun c hc => lowerHex_in_hex c (hmem c hc), h40⟩

/-- Witness for C2's amended output shape at the input "AAAA". -/
theorem encode_output_shape_w :
    (∀ c ∈ ['0', '0', '0', '0', '0', '0'], c ∈ lowerHexChars)
      ∧ (['0', '0', '0', '0', '0', '0'] : List Char).length % 2 = 0
      ∧ (is_valid_db_id ['0', '0', '0', '0', '0', '0'] = true
          ↔ (['0', '0', '0', '0', '0', '0'] : List Char).length = 40) :=
  encode_output_shape ['A', 'A', 'A', 'A'] ['0', '0', '0', '0', '0', '0'] (by decide)

/-- C3 (corrected).  The validity check does not reject a 40-hex string with a
    trailing newline: Python's dollar matches just before a final newline, so
    is_valid_db_id accepts it, refuting the claim at this concrete input. -/
theorem is_valid_db_id_cex :
    is_valid_db_id (List.replicate 40 '0' ++ ['\n']) = true := by decide

/-- C3 (amended).  is_valid_db_id accepts exactly the strings of 40 characters
    from [0-9a-fA-F], or 41 characters whose first 40 are from [0-9a-fA-F] and
    whose last is a newline; every other string is rejected. -/
theorem is_valid_db_id_spec (s : List Char) :
    is_valid_db_id s = true ↔
      ((∀ c ∈ s, c ∈ hexChars) ∧ s.length = 40
        ∨ ∃ t, s = t ++ ['\n'] ∧ t.length = 40 ∧ ∀ c ∈ t, c ∈ hexChars) := by
  simp only [is_valid_db_id, Bool.or_eq_true, Bool.and_eq_true, beq_iff_eq, List.all_eq_true]
  constructor
  · rintro (⟨hhex, hlen⟩ | ⟨⟨htake, hlen⟩, hdrop⟩)
    · exact Or.inl ⟨fun c hc => by simpa using hhex c hc, hlen⟩
    · refine Or.inr ⟨s.take 40, ?_, ?_, ?_⟩
      · conv_lhs => rw [← List.take_append_drop 40 s]
        rw [hdrop]
      · rw [List.length_take]; omega
      · intro c hc; simpa using htake c hc
  · rintro (⟨hhex, hlen⟩ | ⟨t, rfl, hlen, hhex⟩)
    · exact Or.inl ⟨fun c hc => by simpa using hhex c hc, hlen⟩
    · have htake : (t ++ ['\n']).take 40 = t := by
        rw [← hlen]; exact List.take_left t _
      have hdrop : (t ++ ['\n']).drop 40 = ['\n'] := by
        rw [← hlen]; exact List.drop_left t _
      refine Or.inr ⟨⟨?_, ?_⟩, hdrop⟩
      · intro c hc
        rw [htake] at hc
        simpa using hhex c hc
      · simp [hlen]

/-- Witness for C3's amended characterization at the 40-zero id with a
    trailing newline. -/
theorem is_valid_db_id_spec_w :
    is_valid_db_id (List.replicate 40 '0' ++ ['\n']) = true ↔
      ((∀ c ∈ List.replicate 40 '0' ++ ['\n'], c ∈ hexChars)
          ∧ (List.replicate 40 '0' ++ ['\n'] : List Char).length = 40
        ∨ ∃ t, List.replicate 40 '0' ++ ['\n'] = t ++ ['\n'] ∧ t.length = 40
            ∧ ∀ c ∈ t, c ∈ hexChars) :=
  is_valid_db_id_spec (List.replicate 40 '0' ++ ['\n'])

/-- C4 (corrected).  bucket_for_db_id does not lower-case: on the valid
    storage identifier "A000...0" it returns "A", not "a". -/
theorem bucket_for_db_id_cex :
    is_valid_db_id ('A' :: List.replicate 39 '0') = true
      ∧ bucket_for_db_id ('A' :: List.replicate 39 '0') = ['A']
      ∧ (['A'] : List Char) ≠ ['a'] := by decide

/-- C4 (amended).  bucket_for_db_id returns the first character of the
    identifier unchanged (no lower-casing); for every storage identifier
    actually produced by disc_to_db_id the first character is already
    lower-case, so there the result equals the lower-cased first character. -/
theorem bucket_for_db_id_spec (x r : List Char) (h : disc_to_db_id x = some r) :
    bucket_for_db_id r = r.take 1 ∧ bucket_for_db_id r = pyLower (r.take 1) := by
  refine ⟨rfl, ?_⟩
  obtain ⟨hmem, -⟩ := disc_to_db_id_shape x r h
  cases r with
  | nil => rfl
  | cons c rest =>
    have hc : c ∈ lowerHexChars := hmem c (by simp)
    simp [bucket_for_db_id, pyLower, pyLowerChar_lowerHex c hc]

/-- Witness for C4's amended bucket behaviour at the input "AAAA". -/
theorem bucket_for_db_id_spec_w :
    bucket_for_db_id ['0', '0', '0', '0', '0', '0']
        = (['0', '0', '0', '0', '0', '0'] : List Char).take 1
      ∧ bucket_for_db_id ['0', '0', '0', '0', '0', '0']
          = pyLower ((['0', '0', '0', '0', '0', '0'] : List Char).take 1) :=
  bucket_for_db_id_spec ['A', 'A', 'A', 'A'] ['0', '0', '0', '0', '0', '0'] (by decide)

/- Filesystem model.  Paths are '/'-joined strings; dirs and files list the
   directories and files (with contents) that exist.  failPaths are the paths
   on which opening for write, writing, or mkdir raises IOError/OSError;
   failList are the directories on which os.listdir raises OSError.  This is
   the failure-injection abstraction for OS-level errors (permissions, disk
   full, ...). -/
structure FS where
  dirs : List (List Char)
  files : List (List Char × List Char)
  failPaths : List (List Char)
  failList : List (List Char)
deriving DecidableEq

/-- Decidable equality of Except values, for concrete evaluation of modelled
    operations. -/
instance exceptDecidableEq {ε α : Type} [DecidableEq ε] [DecidableEq α] :
    DecidableEq (Except ε α) := fun
  | .error a, .error b =>
    if h : a = b then isTrue (by rw [h]) else isFalse (by intro hh; cases hh; exact h rfl)
  | .error _, .ok _ => isFalse (by intro h; cases h)
  | .ok _, .error _ => isFalse (by intro h; cases h)
  | .ok a, .ok b =>
    if h : a = b then isTrue (by rw [h]) else isFalse (by intro hh; cases hh; exact h rfl)

/-- os.path.isdir. -/
def isdir (fs : FS) (p : List Char) : Bool := fs.dirs.contains p

/-- os.path.isfile. -/
def isfile (fs : FS) (p : List Char) : Bool := (List.lookup p fs.files).isSome

/-- os.path.exists. -/
def pathExists (fs : FS) (p : List Char) : Bool :=
  fs.dirs.contains p || (List.lookup p fs.files).isSome

/-- os.path.join for a relative second component. -/
def pjoin (a b : List Char) : List Char := a ++ '/' :: b

/-- Strip a leading prefix from a path, or none if it does not start with it. -/
def dropPref : List Char → List Char → Option (List Char)
  | [], p => some p
  | _ :: _, [] => none
  | a :: as, b :: bs => if a = b then dropPref as bs else none

/-- The entry name of p inside directory d, if p is a direct child of d. -/
def childName (d p : List Char) : Option (List Char) :=
  match dropPref (d ++ ['/']) p with
  | some rest => if rest ≠ [] ∧ rest.contains '/' = false then some rest else none
  | none => none

/-- os.listdir: the names of the direct children of d among the modelled
    directories and files (in model order; os.listdir order is arbitrary). -/
def childNames (fs : FS) (d : List Char) : List (List Char) :=
  fs.dirs.filterMap (childName d) ++ fs.files.filterMap fun q => childName d q.1

/-- Create or overwrite a file (mode 'wt'). -/
def setFile (fs : FS) (p c : List Char) : FS :=
  { fs with files := (p, c) :: fs.files.filter fun q => q.1 != p }

/-- os.mkdir with failure injection: none models a raised OSError. -/
def mkdirOp (fs : FS) (p : List Char) : Option FS :=
  if fs.failPaths.contains p then none else some { fs with dirs := p :: fs.dirs }

/-- open(p, 'wt') + write + close with failure injection: none models IOError. -/
def writeFileOp (fs : FS) (p c : List Char) : Option FS :=
  if fs.failPaths.contains p then none else some (setFile fs p c)

/-- The distinct DatabaseError messages of db.py (with their format arguments)
    plus fromExc for DatabaseError(dir, exc=e) built from a caught exception. -/
inductive DbMsg where
  | noSuchDir
  | dirNotEmpty
  | noSuchDirectory
  | missingVersionFile
  | invalidVersion (raw : List Char)
  | incompatibleVersion (v : Int)
  | missingDiscDir
  | missingBucketDir
  | errorReadingToc
  | errorCreatingDiscDir
  | errorWritingDiscId
  | fromExc
deriving DecidableEq

/-- The exceptions escaping the modelled operations: DatabaseError (carrying
    the dir argument, the message and the optional entry), ValueError from
    get_disc_by_db_id's validity check, TypeError from base64.b64decode on a
    malformed identifier, and NameError from evaluating the undefined name
    'self' (init_db's except clause refers to self inside a classmethod). -/
inductive Err where
  | dbError (dir : List Char) (msg : DbMsg) (entry : Option (List Char))
  | valueErrorInvalidDbId (id : List Char)
  | typeErrorBadBase64
  | nameErrorSelf
deriving DecidableEq

/-- The spec's InvalidIdentifier kind: a caller-contract violation, raised for
    a storage identifier failing validation (ValueError) or a logical
    identifier that cannot be base64-decoded (TypeError). -/
def isInvalidIdentifierError : Err → Bool
  | .valueErrorInvalidDbId _ => true
  | .typeErrorBadBase64 => true
  | _ => false

/-- Database.VERSION (db.py 82). -/
def VERSION : Nat := 1

/-- Database.VERSION_FILE '.codplayerdb' (db.py 84). -/
def VERSION_FILE : List Char := ['.', 'c', 'o', 'd', 'p', 'l', 'a', 'y', 'e', 'r', 'd', 'b']

/-- Database.DISC_DIR 'discs' (db.py 85). -/
def DISC_DIR : List Char := ['d', 'i', 's', 'c', 's']

/-- Database.DISC_BUCKETS tuple('0123456789abcdef') (db.py 87). -/
def DISC_BUCKETS : List (List Char) := "0123456789abcdef".toList.map fun c => [c]

/-- Database.DISC_ID_SUFFIX '.id' (db.py 89). -/
def DISC_ID_SUFFIX : List Char := ['.', 'i', 'd']

/-- Database.AUDIO_SUFFIX '.cdr' (db.py 90). -/
def AUDIO_SUFFIX : List Char := ['.', 'c', 'd', 'r']

/-- Database.ORIG_TOC_SUFFIX '.toc' (db.py 91). -/
def ORIG_TOC_SUFFIX : List Char := ['.', 't', 'o', 'c']

/-- Database.RIP_LOG_SUFFIX '.riplog' (db.py 93). -/
def RIP_LOG_SUFFIX : List Char := ['.', 'r', 'i', 'p', 'l', 'o', 'g']

/-- Python file.readline: the first line of the content, including its
    newline when present. -/
def pyReadline : List Char → List Char
  | [] => []
  | c :: cs => if c = '\n' then ['\n'] else c :: pyReadline cs

/-- Python whitespace as stripped by int(). -/
def isPySpace (c : Char) : Bool :=
  c == ' ' || c == '\t' || c == '\n' || c == '\x0b' || c == '\x0c' || c == '\r'

/-- Decimal digit accumulation for int(); none on any non-digit. -/
def digitsValAux : List Char → Nat → Option Nat
  | [], acc => some acc
  | c :: cs, acc =>
    if '0' ≤ c ∧ c ≤ '9' then digitsValAux cs (acc * 10 + (c.toNat - 48)) else none

/-- Python int(s) on an ASCII string: strip whitespace, optional single sign,
    one or more decimal digits; none models the raised ValueError. -/
def pyInt (s : List Char) : Option Int :=
  match ((s.dropWhile isPySpace).reverse.dropWhile isPySpace).reverse with
  | '+' :: ds => if ds = [] then none else (digitsValAux ds 0).map fun n => (n : Int)
  | '-' :: ds => if ds = [] then none else (digitsValAux ds 0).map fun n => -(n : Int)
  | ds => if ds = [] then none else (digitsValAux ds 0).map fun n => (n : Int)

/-- Bucket creation loop of init_db (db.py 162-163); none models OSError. -/
def mkBuckets (disc_top : List Char) : FS → List (List Char) → Option FS
  | fs, [] => some fs
  | fs, b :: bs =>
    match mkdirOp fs (pjoin disc_top b) with
    | none => none
    | some fs1 => mkBuckets disc_top fs1 bs

/-- Database.init_db (db.py 139-167).  Checks that the directory exists and is
    empty (DatabaseError 'no such dir' / 'dir is not empty'), writes the
    version file, creates discs/ and the 16 buckets.  Any IOError/OSError is
    caught by "except (IOError, OSError), e: raise DatabaseError(self.db_dir,
    exc = e)" -- but init_db is a classmethod, no name self is in scope, so
    evaluating self.db_dir raises NameError instead of the intended
    DatabaseError; hence every injected OS failure yields Err.nameErrorSelf. -/
def init_db (fs : FS) (db_dir : List Char) : Except Err FS :=
  if isdir fs db_dir = false then .error (.dbError db_dir .noSuchDir none)
  else if fs.failList.contains db_dir then .error .nameErrorSelf
  else if (childNames fs db_dir).isEmpty = false then .error (.dbError db_dir .dirNotEmpty none)
  else
    match writeFileOp fs (pjoin db_dir VERSION_FILE) (Nat.toDigits 10 VERSION ++ ['\n']) with
    | none => .error .nameErrorSelf
    | some fs1 =>
      match mkdirOp fs1 (pjoin db_dir DISC_DIR) with
      | none => .error .nameErrorSelf
      | some fs2 =>
        match mkBuckets (pjoin db_dir DISC_DIR) fs2 DISC_BUCKETS with
        | none => .error .nameErrorSelf
        | some fs3 => .ok fs3

/-- Bucket validation loop of Database.__init__ (db.py 221-226). -/
def checkBuckets (fs : FS) (db_dir disc_top : List Char) : List (List Char) → Except Err Unit
  | [] => .ok ()
  | b :: bs =>
    if isdir fs (pjoin disc_top b) = false then
      .error (.dbError db_dir .missingBucketDir (some b))
    else checkBuckets fs db_dir disc_top bs

/-- Database.__init__ (db.py 170-231): validate in order that db_dir is a
    directory, the version file exists, its first line parses as an int
    (ValueError becomes DatabaseError 'invalid version'), the version equals
    VERSION ('incompatible version'), discs/ exists, and all 16 buckets exist.
    An IOError on opening the version file is translated by the outer handler
    into DatabaseError(db_dir, exc=e). -/
def dbOpen (fs : FS) (db_dir : List Char) : Except Err Unit :=
  if isdir fs db_dir = false then .error (.dbError db_dir .noSuchDirectory none)
  else
    match List.lookup (pjoin db_dir VERSION_FILE) fs.files with
    | none => .error (.dbError db_dir .missingVersionFile (some VERSION_FILE))
    | some content =>
      if fs.failPaths.contains (pjoin db_dir VERSION_FILE) then
        .error (.dbError db_dir .fromExc none)
      else
        match pyInt (pyReadline content) with
        | none => .error (.dbError db_dir (.invalidVersion (pyReadline content)) (some VERSION_FILE))
        | some v =>
          if v ≠ (VERSION : Int) then
            .error (.dbError db_dir (.incompatibleVersion v) (some VERSION_FILE))
          else if isdir fs (pjoin db_dir DISC_DIR) = false then
            .error (.dbError db_dir .missingDiscDir none)
          else checkBuckets fs db_dir (pjoin db_dir DISC_DIR) DISC_BUCKETS

/-- Database.get_disc_dir (db.py 234-241). -/
def get_disc_dir (db_dir db_id : List Char) : List Char :=
  pjoin (pjoin (pjoin db_dir DISC_DIR) (bucket_for_db_id db_id)) db_id

/-- Per-bucket loop of Database.iterdiscs_db_ids (db.py 254-264), eagerly
    collecting what the generator yields; the first bucket whose os.listdir
    raises OSError turns into DatabaseError(db_dir, exc=e, entry=b). -/
def iterAux (fs : FS) (db_dir disc_top : List Char) : List (List Char) → Except Err (List (List Char))
  | [] => .ok []
  | b :: bs =>
    if fs.failList.contains (pjoin disc_top b) then
      .error (.dbError db_dir .fromExc (some b))
    else
      match iterAux fs db_dir disc_top bs with
      | .error e => .error e
      | .ok rest =>
        .ok (((childNames fs (pjoin disc_top b)).filter fun f =>
          is_valid_db_id f && bucket_for_db_id f == b) ++ rest)

/-- Database.iterdiscs_db_ids (db.py 243-264). -/
def iterdiscs_db_ids (fs : FS) (db_dir : List Char) : Except Err (List (List Char)) :=
  iterAux fs db_dir (pjoin db_dir DISC_DIR) DISC_BUCKETS

/-- The external TOC-parsing collaborator's product (model.Disc.from_toc),
    consumed as an opaque pair of the raw TOC bytes and the disc id. -/
structure Disc where
  toc_data : List Char
  disc_id : List Char
deriving DecidableEq

/-- Database.get_disc_by_db_id (db.py 275-305): ValueError on an invalid id;
    ok none when the audio file or the original TOC file is missing; otherwise
    read at most 50000 characters of the TOC (IOError becomes a DatabaseError
    whose dir argument is the formatted message naming the TOC file) and build
    the Disc from the TOC data and the Musicbrainz form of the id. -/
def get_disc_by_db_id (fs : FS) (db_dir db_id : List Char) : Except Err (Option Disc) :=
  if is_valid_db_id db_id = false then .error (.valueErrorInvalidDbId db_id)
  else
    if (pathExists fs (pjoin (get_disc_dir db_dir db_id) (filename_base db_id ++ AUDIO_SUFFIX))
        && pathExists fs
          (pjoin (get_disc_dir db_dir db_id) (filename_base db_id ++ ORIG_TOC_SUFFIX))) = false then
      .ok none
    else
      if fs.failPaths.contains
          (pjoin (get_disc_dir db_dir db_id) (filename_base db_id ++ ORIG_TOC_SUFFIX)) then
        .error (.dbError
          (pjoin (get_disc_dir db_dir db_id) (filename_base db_id ++ ORIG_TOC_SUFFIX))
          .errorReadingToc none)
      else
        match db_to_disc_id db_id with
        | none => .error .typeErrorBadBase64
        | some did =>
          .ok (some (Disc.mk
            ((match List.lookup
                (pjoin (get_disc_dir db_dir db_id) (filename_base db_id ++ ORIG_TOC_SUFFIX))
                fs.files with
              | some c => c
              | none => []).take 50000)
            did))

/-- Database.get_disc_by_disc_id (db.py 267-272): encode then look up; the
    TypeError from a malformed logical identifier propagates. -/
def get_disc_by_disc_id (fs : FS) (db_dir disc_id : List Char) : Except Err (Option Disc) :=
  match disc_to_db_id disc_id with
  | none => .error .typeErrorBadBase64
  | some db_id => get_disc_by_db_id fs db_dir db_id

/-- The mapping returned by Database.create_disc_dir (db.py 346-353). -/
structure RipPaths where
  disc_path : List Char
  audio_file : List Char
  toc_file : List Char
  log_path : List Char
deriving DecidableEq

/-- Database.create_disc_dir (db.py 308-353): encode the id, create the disc
    directory unless it already exists (OSError becomes a DatabaseError whose
    dir argument is the formatted message naming the path), write the disc id
    file (disc_id + newline, overwriting), return the rip paths. -/
def create_disc_dir (fs : FS) (db_dir disc_id : List Char) : Except Err (FS × RipPaths) :=
  match disc_to_db_id disc_id with
  | none => .error .typeErrorBadBase64
  | some db_id =>
    match
      (if isdir fs (get_disc_dir db_dir db_id) then .ok fs
       else
         match mkdirOp fs (get_disc_dir db_dir db_id) with
         | none => .error (.dbError (get_disc_dir db_dir db_id) .errorCreatingDiscDir none)
         | some fs1 => .ok fs1 : Except Err FS)
    with
    | .error e => .error e
    | .ok fs1 =>
      match writeFileOp fs1
          (pjoin (get_disc_dir db_dir db_id) (filename_base db_id ++ DISC_ID_SUFFIX))
          (disc_id ++ ['\n']) with
      | none =>
        .error (.dbError
          (pjoin (get_disc_dir db_dir db_id) (filename_base db_id ++ DISC_ID_SUFFIX))
          .errorWritingDiscId none)
      | some fs2 =>
        .ok (fs2, RipPaths.mk (get_disc_dir db_dir db_id)
          (filename_base db_id ++ AUDIO_SUFFIX)
          (filename_base db_id ++ ORIG_TOC_SUFFIX)
          (pjoin (get_disc_dir db_dir db_id) (filename_base db_id ++ RIP_LOG_SUFFIX)))

/-- C5 (confirmed).  get_disc_by_db_id on an identifier failing the 40-hex
    check raises ValueError (an InvalidIdentifier-kind error), and
    get_disc_by_disc_id on a logical identifier that base64 cannot decode
    raises TypeError (also InvalidIdentifier-kind); both are errors, while a
    missing audio file or missing original TOC file yields the non-error
    "not found" result ok none, which no error can equal. -/
theorem lookup_error_kinds (fs : FS) (db_dir db_id disc_id : List Char) :
    (is_valid_db_id db_id = false →
      get_disc_by_db_id fs db_dir db_id = .error (.valueErrorInvalidDbId db_id)
        ∧ isInvalidIdentifierError (.valueErrorInvalidDbId db_id) = true)
    ∧ (disc_to_db_id disc_id = none →
      get_disc_by_disc_id fs db_dir disc_id = .error .typeErrorBadBase64
        ∧ isInvalidIdentifierError .typeErrorBadBase64 = true)
    ∧ (is_valid_db_id db_id = true →
      (pathExists fs (pjoin (get_disc_dir db_dir db_id) (filename_base db_id ++ AUDIO_SUFFIX))
          = false
        ∨ pathExists fs (pjoin (get_disc_dir db_dir db_id) (filename_base db_id ++ ORIG_TOC_SUFFIX))
          = false) →
      get_disc_by_db_id fs db_dir db_id = .ok none)
    ∧ (∀ e : Err, (Except.error e : Except Err (Option Disc)) ≠ .ok none) := by
  refine ⟨?_, ?_, ?_, ?_⟩
  · intro h
    exact ⟨by simp [get_disc_by_db_id, h], rfl⟩
  · intro h
    exact ⟨by simp [get_disc_by_disc_id, h], rfl⟩
  · intro hv hmiss
    have hand : (pathExists fs
          (pjoin (get_disc_dir db_dir db_id) (filename_base db_id ++ AUDIO_SUFFIX))
        && pathExists fs
          (pjoin (get_disc_dir db_dir db_id) (filename_base db_id ++ ORIG_TOC_SUFFIX))) = false := by
      rcases hmiss with h | h <;> simp [h]
    simp [get_disc_by_db_id, hv, hand]
  · intro e h
    cases h

/-- Witness for C5 at an invalid storage id, an undecodable logical id, and a
    valid id whose disc directory holds neither audio nor TOC file. -/
theorem lookup_error_kinds_w :
    (get_disc_by_db_id ⟨[], [], [], []⟩ ['d', 'b'] ['x']
        = .error (.valueErrorInvalidDbId ['x'])
      ∧ isInvalidIdentifierError (.valueErrorInvalidDbId ['x']) = true)
    ∧ (get_disc_by_disc_id ⟨[], [], [], []⟩ ['d', 'b'] ['A'] = .error .typeErrorBadBase64
      ∧ isInvalidIdentifierError .typeErrorBadBase64 = true)
    ∧ get_disc_by_db_id ⟨[], [], [], []⟩ ['d', 'b'] (List.replicate 40 '0') = .ok none :=
  ⟨(lookup_error_kinds ⟨[], [], [], []⟩ ['d', 'b'] ['x'] ['A']).1 (by decide),
   (lookup_error_kinds ⟨[], [], [], []⟩ ['d', 'b'] ['x'] ['A']).2.1 (by decide),
   (lookup_error_kinds ⟨[], [], [], []⟩ ['d', 'b'] (List.replicate 40 '0') ['A']).2.2.1
     (by decide) (Or.inl (by decide))⟩

/-- C6 (code_bug).  The StoreInvalid half of the claim holds: init_db fails
    with DatabaseError 'no such dir' on a missing root and 'dir is not empty'
    on a non-empty root, and a second init_db after a successful one fails the
    same way.  But the translation half is false in the code: init_db is a
    classmethod whose except handler evaluates self.db_dir with no self in
    scope, so an injected IOError while writing the version file surfaces as
    NameError, not as a DatabaseError wrapping the IOError. -/
theorem init_db_io_error_not_translated :
    init_db ⟨[], [], [], []⟩ ['d', 'b'] = .error (.dbError ['d', 'b'] .noSuchDir none)
    ∧ init_db ⟨[['d', 'b'], pjoin ['d', 'b'] ['x']], [], [], []⟩ ['d', 'b']
        = .error (.dbError ['d', 'b'] .dirNotEmpty none)
    ∧ init_db ⟨[['d', 'b']], [], [pjoin ['d', 'b'] VERSION_FILE], []⟩ ['d', 'b']
        = .error .nameErrorSelf
    ∧ (init_db ⟨[['d', 'b']], [], [], []⟩ ['d', 'b']).isOk = true
    ∧ ((init_db ⟨[['d', 'b']], [], [], []⟩ ['d', 'b']).bind fun fs1 => init_db fs1 ['d', 'b'])
        = .error (.dbError ['d', 'b'] .dirNotEmpty none) := by
  decide

/-- C9 (confirmed).  Starting from a store without the disc directory and with
    no injected failures on its paths, create_disc_dir succeeds, and calling it
    again succeeds with the same returned mapping: the only new directory is
    the disc directory at bucket(db_id)/db_id, created once, and after each
    call the identity file content is the logical identifier plus newline. -/
theorem create_disc_dir_idempotent (fs : FS) (db_dir disc_id db_id : List Char)
    (hid : disc_to_db_id disc_id = some db_id)
    (habs : isdir fs (get_disc_dir db_dir db_id) = false)
    (hp : get_disc_dir db_dir db_id ∉ fs.failPaths)
    (hq : pjoin (get_disc_dir db_dir db_id) (filename_base db_id ++ DISC_ID_SUFFIX)
      ∉ fs.failPaths) :
    ∃ fs1 fs2 r,
      create_disc_dir fs db_dir disc_id = .ok (fs1, r)
      ∧ create_disc_dir fs1 db_dir disc_id = .ok (fs2, r)
      ∧ fs1.dirs = get_disc_dir db_dir db_id :: fs.dirs
      ∧ fs2.dirs = fs1.dirs
      ∧ List.lookup (pjoin (get_disc_dir db_dir db_id) (filename_base db_id ++ DISC_ID_SUFFIX))
          fs1.files = some (disc_id ++ ['\n'])
      ∧ List.lookup (pjoin (get_disc_dir db_dir db_id) (filename_base db_id ++ DISC_ID_SUFFIX))
          fs2.files = some (disc_id ++ ['\n']) := by
  have hm : mkdirOp fs (get_disc_dir db_dir db_id)
      = some { fs with dirs := get_disc_dir db_dir db_id :: fs.dirs } := by
    simp [mkdirOp, hp]
  have hw1 : writeFileOp { fs with dirs := get_disc_dir db_dir db_id :: fs.dirs }
      (pjoin (get_disc_dir db_dir db_id) (filename_base db_id ++ DISC_ID_SUFFIX))
      (disc_id ++ ['\n'])
      = some (setFile { fs with dirs := get_disc_dir db_dir db_id :: fs.dirs }
          (pjoin (get_disc_dir db_dir db_id) (filename_base db_id ++ DISC_ID_SUFFIX))
          (disc_id ++ ['\n'])) := by
    simp [writeFileOp, hq]
  have hd1 : isdir (setFile { fs with dirs := get_disc_dir db_dir db_id :: fs.dirs }
      (pjoin (get_disc_dir db_dir db_id) (filename_base db_id ++ DISC_ID_SUFFIX))
      (disc_id ++ ['\n'])) (get_disc_dir db_dir db_id) = true := by
    simp [isdir, setFile]
  have hw2 : writeFileOp (setFile { fs with dirs := get_disc_dir db_dir db_id :: fs.dirs }
      (pjoin (get_disc_dir db_dir db_id) (filename_base db_id ++ DISC_ID_SUFFIX))
      (disc_id ++ ['\n']))
      (pjoin (get_disc_dir db_dir db_id) (filename_base db_id ++ DISC_ID_SUFFIX))
      (disc_id ++ ['\n'])
      = some (setFile (setFile { fs with dirs := get_disc_dir db_dir db_id :: fs.dirs }
          (pjoin (get_disc_dir db_dir db_id) (filename_base db_id ++ DISC_ID_SUFFIX))
          (disc_id ++ ['\n']))
          (pjoin (get_disc_dir db_dir db_id) (filename_base db_id ++ DISC_ID_SUFFIX))
          (disc_id ++ ['\n'])) := by
    simp [writeFileOp, setFile, hq]
  refine ⟨setFile { fs with dirs := get_disc_dir db_dir db_id :: fs.dirs }
      (pjoin (get_disc_dir db_dir db_id) (filename_base db_id ++ DISC_ID_SUFFIX))
      (disc_id ++ ['\n']),
    setFile (setFile { fs with dirs := get_disc_dir db_dir db_id :: fs.dirs }
      (pjoin (get_disc_dir db_dir db_id) (filename_base db_id ++ DISC_ID_SUFFIX))
      (disc_id ++ ['\n']))
      (pjoin (get_disc_dir db_dir db_id) (filename_base db_id ++ DISC_ID_SUFFIX))
      (disc_id ++ ['\n']),
    RipPaths.mk (get_disc_dir db_dir db_id)
      (filename_base db_id ++ AUDIO_SUFFIX) (filename_base db_id ++ ORIG_TOC_SUFFIX)
      (pjoin (get_disc_dir db_dir db_id) (filename_base db_id ++ RIP_LOG_SUFFIX)),
    ?_, ?_, rfl, rfl, ?_, ?_⟩
  · simp only [create_disc_dir, hid, habs, Bool.false_eq_true, if_false, hm, hw1]
  · simp only [create_disc_dir, hid, hd1, if_true, hw2]
  · simp [setFile, List.lookup]
  · simp [setFile, List.lookup]

/-- Witness for C9 creating the disc entry for "AAAA" twice in an empty tree. -/
theorem create_disc_dir_idempotent_w :
    ∃ fs1 fs2 r,
      create_disc_dir ⟨[], [], [], []⟩ ['d', 'b'] ['A', 'A', 'A', 'A'] = .ok (fs1, r)
      ∧ create_disc_dir fs1 ['d', 'b'] ['A', 'A', 'A', 'A'] = .ok (fs2, r)
      ∧ fs1.dirs = get_disc_dir ['d', 'b'] ['0', '0', '0', '0', '0', '0'] :: ([] : List (List Char))
      ∧ fs2.dirs = fs1.dirs
      ∧ List.lookup (pjoin (get_disc_dir ['d', 'b'] ['0', '0', '0', '0', '0', '0'])
          (filename_base ['0', '0', '0', '0', '0', '0'] ++ DISC_ID_SUFFIX)) fs1.files
          = some (['A', 'A', 'A', 'A'] ++ ['\n'])
      ∧ List.lookup (pjoin (get_disc_dir ['d', 'b'] ['0', '0', '0', '0', '0', '0'])
          (filename_base ['0', '0', '0', '0', '0', '0'] ++ DISC_ID_SUFFIX)) fs2.files
          = some (['A', 'A', 'A', 'A'] ++ ['\n']) :=
  create_disc_dir_idempotent ⟨[], [], [], []⟩ ['d', 'b'] ['A', 'A', 'A', 'A']
    ['0', '0', '0', '0', '0', '0'] (by decide) (by decide) (by decide) (by decide)

/-- Python readline stops at the first newline of the content. -/
theorem pyReadline_first_line (line rest : List Char) (h : '\n' ∉ line) :
    pyReadline (line ++ '\n' :: rest) = line ++ ['\n'] := by
  induction line with
  | nil => simp [pyReadline]
  | cons c cs ih =>
    simp only [List.mem_cons, not_or] at h
    simp only [List.cons_append, pyReadline, List.append_eq]
    rw [if_neg (fun hh => h.1 hh.symm), ih h.2]

/-- The bucket validation loop succeeds when every bucket directory exists. -/
theorem checkBuckets_ok (fs : FS) (db_dir dt : List Char) :
    ∀ l, (∀ b ∈ l, isdir fs (pjoin dt b) = true) → checkBuckets fs db_dir dt l = .ok () := by
  intro l
  induction l with
  | nil => intro _; rfl
  | cons b bs ih =>
    intro h
    have hb := h b (by simp)
    simp [checkBuckets, hb]
    exact ih fun x hx => h x (by simp [hx])

/-- C10 (confirmed).  Database.__init__ reads only the first line of the
    version file: readline returns the first line up to and including its
    newline, and whenever that first line parses as the supported version the
    open succeeds on an otherwise-valid store, whatever follows on later
    lines of the file. -/
theorem version_file_first_line_only (fs : FS) (db_dir line rest : List Char)
    (hnl : '\n' ∉ line)
    (hparse : pyInt (line ++ ['\n']) = some (VERSION : Int))
    (hroot : isdir fs db_dir = true)
    (hvf : List.lookup (pjoin db_dir VERSION_FILE) fs.files = some (line ++ '\n' :: rest))
    (hnf : pjoin db_dir VERSION_FILE ∉ fs.failPaths)
    (hdt : isdir fs (pjoin db_dir DISC_DIR) = true)
    (hbk : ∀ b ∈ DISC_BUCKETS, isdir fs (pjoin (pjoin db_dir DISC_DIR) b) = true) :
    pyReadline (line ++ '\n' :: rest) = line ++ ['\n']
      ∧ dbOpen fs db_dir = .ok () := by
  have hrl := pyReadline_first_line line rest hnl
  refine ⟨hrl, ?_⟩
  simp [dbOpen, hroot, hvf, hnf, hrl, hparse, hdt, VERSION]
  exact checkBuckets_ok fs db_dir (pjoin db_dir DISC_DIR) DISC_BUCKETS hbk

/-- A fully valid store whose version file carries junk after the first line. -/
def fsC10 : FS :=
  ⟨[['d', 'b'], pjoin ['d', 'b'] DISC_DIR]
      ++ DISC_BUCKETS.map (pjoin (pjoin ['d', 'b'] DISC_DIR)),
   [(pjoin ['d', 'b'] VERSION_FILE, ['1', '\n', 'x', 'y', 'z'])], [], []⟩

/-- Witness for C10 on a store whose version file is "1\nxyz". -/
theorem version_file_first_line_only_w :
    pyReadline (['1'] ++ '\n' :: ['x', 'y', 'z']) = ['1'] ++ ['\n']
      ∧ dbOpen fsC10 ['d', 'b'] = .ok () :=
  version_file_first_line_only fsC10 ['d', 'b'] ['1'] ['x', 'y', 'z']
    (by decide) (by decide) (by decide) (by decide) (by decide) (by decide) (by decide)

/-- The bucket validation loop fails on the first missing bucket, naming it. -/
theorem checkBuckets_first_missing (fs : FS) (db_dir dt : List Char) :
    ∀ l k, k < l.length →
    (∀ j, j < k → isdir fs (pjoin dt (l.getD j [])) = true) →
    isdir fs (pjoin dt (l.getD k [])) = false →
    checkBuckets fs db_dir dt l
      = .error (.dbError db_dir .missingBucketDir (some (l.getD k []))) := by
  intro l
  induction l with
  | nil => intro k hk; simp at hk
  | cons b bs ih =>
    intro k hk hprev hmiss
    cases k with
    | zero =>
      simp only [List.getD_cons_zero] at hmiss ⊢
      simp [checkBuckets, hmiss]
    | succ k =>
      have hb : isdir fs (pjoin dt b) = true := by
        have h0 := hprev 0 (Nat.succ_pos k)
        simpa using h0
      simp only [List.getD_cons_succ] at hmiss ⊢
      simp only [checkBuckets, hb, Bool.true_eq_false, if_false]
      exact ih k (by simpa using hk) (fun j hj => by simpa using hprev (j + 1) (by omega)) hmiss

/-- C7 (confirmed).  Database.__init__ validates in order: db_dir is a
    directory; the version file exists (error names the version file); its
    first line parses as an integer (otherwise 'invalid version', naming the
    version file and the raw line); that integer equals VERSION (otherwise the
    distinct 'incompatible version', naming the version file and the value);
    the discs directory exists; each of the 16 buckets exists in order
    (otherwise 'missing bucket dir' naming the first missing bucket); and with
    everything present the open succeeds. -/
theorem db_open_validation (fs : FS) (db_dir : List Char) :
    (isdir fs db_dir = false →
      dbOpen fs db_dir = .error (.dbError db_dir .noSuchDirectory none))
    ∧ (isdir fs db_dir = true →
      List.lookup (pjoin db_dir VERSION_FILE) fs.files = none →
      dbOpen fs db_dir = .error (.dbError db_dir .missingVersionFile (some VERSION_FILE)))
    ∧ (∀ content, isdir fs db_dir = true →
      List.lookup (pjoin db_dir VERSION_FILE) fs.files = some content →
      pjoin db_dir VERSION_FILE ∉ fs.failPaths →
      pyInt (pyReadline content) = none →
      dbOpen fs db_dir
        = .error (.dbError db_dir (.invalidVersion (pyReadline content)) (some VERSION_FILE)))
    ∧ (∀ content v, isdir fs db_dir = true →
      List.lookup (pjoin db_dir VERSION_FILE) fs.files = some content →
      pjoin db_dir VERSION_FILE ∉ fs.failPaths →
      pyInt (pyReadline content) = some v →
      v ≠ (VERSION : Int) →
      dbOpen fs db_dir = .error (.dbError db_dir (.incompatibleVersion v) (some VERSION_FILE)))
    ∧ (∀ content, isdir fs db_dir = true →
      List.lookup (pjoin db_dir VERSION_FILE) fs.files = some content →
      pjoin db_dir VERSION_FILE ∉ fs.failPaths →
      pyInt (pyReadline content) = some (VERSION : Int) →
      isdir fs (pjoin db_dir DISC_DIR) = false →
      dbOpen fs db_dir = .error (.dbError db_dir .missingDiscDir none))
    ∧ (∀ content k, isdir fs db_dir = true →
      List.lookup (pjoin db_dir VERSION_FILE) fs.files = some content →
      pjoin db_dir VERSION_FILE ∉ fs.failPaths →
      pyInt (pyReadline content) = some (VERSION : Int) →
      isdir fs (pjoin db_dir DISC_DIR) = true →
      k < 16 →
      (∀ j, j < k → isdir fs (pjoin (pjoin db_dir DISC_DIR) (DISC_BUCKETS.getD j [])) = true) →
      isdir fs (pjoin (pjoin db_dir DISC_DIR) (DISC_BUCKETS.getD k [])) = false →
      dbOpen fs db_dir
        = .error (.dbError db_dir .missingBucketDir (some (DISC_BUCKETS.getD k []))))
    ∧ (∀ content, isdir fs db_dir = true →
      List.lookup (pjoin db_dir VERSION_FILE) fs.files = some content →
      pjoin db_dir VERSION_FILE ∉ fs.failPaths →
      pyInt (pyReadline content) = some (VERSION : Int) →
      isdir fs (pjoin db_dir DISC_DIR) = true →
      (∀ b ∈ DISC_BUCKETS, isdir fs (pjoin (pjoin db_dir DISC_DIR) b) = true) →
      dbOpen fs db_dir = .ok ()) := by
  refine ⟨?_, ?_, ?_, ?_, ?_, ?_, ?_⟩
  · intro h
    simp [dbOpen, h]
  · intro h1 h2
    simp [dbOpen, h1, h2]
  · intro content h1 h2 h3 h4
    simp [dbOpen, h1, h2, h3, h4]
  · intro content v h1 h2 h3 h4 h5
    simp [dbOpen, h1, h2, h3, h4, h5]
  · intro content h1 h2 h3 h4 h5
    simp [dbOpen, h1, h2, h3, h4, h5, VERSION]
  · intro content k h1 h2 h3 h4 h5 hk hprev hmiss
    have hcb := checkBuckets_first_missing fs db_dir (pjoin db_dir DISC_DIR) DISC_BUCKETS k
      (by simpa [DISC_BUCKETS] using hk) hprev hmiss
    simp [dbOpen, h1, h2, h3, h4, h5, VERSION]
    simpa [List.getD] using hcb
  · intro content h1 h2 h3 h4 h5 hbk
    simp [dbOpen, h1, h2, h3, h4, h5, VERSION]
    exact checkBuckets_ok fs db_dir (pjoin db_dir DISC_DIR) DISC_BUCKETS hbk

/-- Store with a missing root, for the C7 witness. -/
def fs7a : FS := ⟨[], [], [], []⟩

/-- Store whose root exists but has no version file, for the C7 witness. -/
def fs7b : FS := ⟨[['d', 'b']], [], [], []⟩

/-- Store whose version file content does not parse, for the C7 witness. -/
def fs7c : FS := ⟨[['d', 'b']], [(pjoin ['d', 'b'] VERSION_FILE, ['x', '\n'])], [], []⟩

/-- Store whose version file holds the wrong version, for the C7 witness. -/
def fs7d : FS := ⟨[['d', 'b']], [(pjoin ['d', 'b'] VERSION_FILE, ['2', '\n'])], [], []⟩

/-- Store with a valid version file but no discs directory, for the C7 witness. -/
def fs7e : FS := ⟨[['d', 'b']], [(pjoin ['d', 'b'] VERSION_FILE, ['1', '\n'])], [], []⟩

/-- Store with every bucket except 'b', for the C7 witness. -/
def fs7f : FS :=
  ⟨[['d', 'b'], pjoin ['d', 'b'] DISC_DIR]
      ++ (DISC_BUCKETS.filter fun b => b != ['b']).map (pjoin (pjoin ['d', 'b'] DISC_DIR)),
   [(pjoin ['d', 'b'] VERSION_FILE, ['1', '\n'])], [], []⟩

/-- Fully valid store, for the C7 witness. -/
def fs7g : FS :=
  ⟨[['d', 'b'], pjoin ['d', 'b'] DISC_DIR]
      ++ DISC_BUCKETS.map (pjoin (pjoin ['d', 'b'] DISC_DIR)),
   [(pjoin ['d', 'b'] VERSION_FILE, ['1', '\n'])], [], []⟩

/-- Witness for C7 on seven concrete stores, one per validation outcome. -/
theorem db_open_validation_w :
    dbOpen fs7a ['d', 'b'] = .error (.dbError ['d', 'b'] .noSuchDirectory none)
    ∧ dbOpen fs7b ['d', 'b'] = .error (.dbError ['d', 'b'] .missingVersionFile (some VERSION_FILE))
    ∧ dbOpen fs7c ['d', 'b']
        = .error (.dbError ['d', 'b'] (.invalidVersion (pyReadline ['x', '\n'])) (some VERSION_FILE))
    ∧ dbOpen fs7d ['d', 'b']
        = .error (.dbError ['d', 'b'] (.incompatibleVersion 2) (some VERSION_FILE))
    ∧ dbOpen fs7e ['d', 'b'] = .error (.dbError ['d', 'b'] .missingDiscDir none)
    ∧ dbOpen fs7f ['d', 'b']
        = .error (.dbError ['d', 'b'] .missingBucketDir (some (DISC_BUCKETS.getD 11 [])))
    ∧ dbOpen fs7g ['d', 'b'] = .ok () :=
  ⟨(db_open_validation fs7a ['d', 'b']).1 (by decide),
   (db_open_validation fs7b ['d', 'b']).2.1 (by decide) (by decide),
   (db_open_validation fs7c ['d', 'b']).2.2.1 ['x', '\n'] (by decide) (by decide) (by decide)
     (by decide),
   (db_open_validation fs7d ['d', 'b']).2.2.2.1 ['2', '\n'] 2 (by decide) (by decide) (by decide)
     (by decide) (by decide),
   (db_open_validation fs7e ['d', 'b']).2.2.2.2.1 ['1', '\n'] (by decide) (by decide) (by decide)
     (by decide) (by decide),
   (db_open_validation fs7f ['d', 'b']).2.2.2.2.2.1 ['1', '\n'] 11 (by decide) (by decide)
     (by decide) (by decide) (by decide) (by decide) (by decide) (by decide),
   (db_open_validation fs7g ['d', 'b']).2.2.2.2.2.2 ['1', '\n'] (by decide) (by decide)
     (by decide) (by decide) (by decide) (by decide)⟩

/-- A successful enumeration implies no bucket listing failed. -/
theorem iterAux_ok_nofail (fs : FS) (db_dir dt : List Char) :
    ∀ l L, iterAux fs db_dir dt l = .ok L →
      ∀ b ∈ l, fs.failList.contains (pjoin dt b) = false := by
  intro l
  induction l with
  | nil => intro L _ b hb; simp at hb
  | cons c cs ih =>
    intro L h b hb
    simp only [iterAux] at h
    split at h
    · cases h
    · rename_i hfail
      rcases List.mem_cons.mp hb with rfl | hb2
      · simpa using hfail
      · cases hrec : iterAux fs db_dir dt cs with
        | error e => rw [hrec] at h; cases h
        | ok rest => exact ih rest hrec b hb2

/-- With no failing bucket, the enumeration yields, bucket by bucket in the
    given order, the entries that are valid ids in their own bucket. -/
theorem iterAux_ok_of_nofail (fs : FS) (db_dir dt : List Char) :
    ∀ l, (∀ b ∈ l, fs.failList.contains (pjoin dt b) = false) →
      iterAux fs db_dir dt l
        = .ok ((l.map fun b => (childNames fs (pjoin dt b)).filter fun f =>
            is_valid_db_id f && bucket_for_db_id f == b).flatten) := by
  intro l
  induction l with
  | nil => intro _; simp [iterAux]
  | cons c cs ih =>
    intro h
    have hc : fs.failList.contains (pjoin dt c) = false := h c (by simp)
    simp only [iterAux, hc, Bool.false_eq_true, if_false]
    rw [ih fun b hb => h b (by simp [hb])]
    simp

/-- A failed enumeration reports a DatabaseError naming a failing bucket. -/
theorem iterAux_error_shape (fs : FS) (db_dir dt : List Char) :
    ∀ l e, iterAux fs db_dir dt l = .error e →
      ∃ b, b ∈ l ∧ fs.failList.contains (pjoin dt b) = true
        ∧ e = .dbError db_dir .fromExc (some b) := by
  intro l
  induction l with
  | nil => intro e h; simp only [iterAux] at h; cases h
  | cons c cs ih =>
    intro e h
    simp only [iterAux] at h
    split at h
    · rename_i hfail
      cases h
      exact ⟨c, by simp, by simpa using hfail, rfl⟩
    · cases hrec : iterAux fs db_dir dt cs with
      | error e2 =>
        rw [hrec] at h
        cases h
        obtain ⟨b, hb, hf, he⟩ := ih _ hrec
        exact ⟨b, by simp [hb], hf, he⟩
      | ok rest =>
        rw [hrec] at h
        cases h

/-- Any failing bucket fails the whole enumeration. -/
theorem iterAux_fail_gives_error (fs : FS) (db_dir dt : List Char) :
    ∀ l, (∃ b, b ∈ l ∧ fs.failList.contains (pjoin dt b) = true) →
      ∃ e, iterAux fs db_dir dt l = .error e := by
  intro l hex
  cases h : iterAux fs db_dir dt l with
  | error e => exact ⟨e, rfl⟩
  | ok L =>
    obtain ⟨b, hb, hf⟩ := hex
    have hnf := iterAux_ok_nofail fs db_dir dt l L h b hb
    rw [hnf] at hf
    cases hf

/-- C8 (confirmed).  iterdiscs_db_ids scans the sixteen buckets in the fixed
    ascending order of DISC_BUCKETS: on success the result is the
    concatenation, bucket by bucket, of the directory entries passing
    is_valid_db_id whose own computed bucket equals the bucket scanned, so a
    name is yielded exactly when some bucket directory lists it, it is valid,
    and it lies in its own bucket; a listing failure on any bucket fails the
    whole enumeration with a DatabaseError naming that bucket. -/
theorem iterdiscs_spec (fs : FS) (db_dir : List Char) :
    (∀ L, iterdiscs_db_ids fs db_dir = .ok L →
      L = (DISC_BUCKETS.map fun b =>
            (childNames fs (pjoin (pjoin db_dir DISC_DIR) b)).filter fun f =>
              is_valid_db_id f && bucket_for_db_id f == b).flatten
        ∧ ∀ f, f ∈ L ↔ ∃ b, b ∈ DISC_BUCKETS
            ∧ f ∈ childNames fs (pjoin (pjoin db_dir DISC_DIR) b)
            ∧ is_valid_db_id f = true ∧ bucket_for_db_id f = b)
    ∧ (∀ e, iterdiscs_db_ids fs db_dir = .error e →
        ∃ b, b ∈ DISC_BUCKETS
          ∧ fs.failList.contains (pjoin (pjoin db_dir DISC_DIR) b) = true
          ∧ e = .dbError db_dir .fromExc (some b))
    ∧ ((∃ b, b ∈ DISC_BUCKETS
          ∧ fs.failList.contains (pjoin (pjoin db_dir DISC_DIR) b) = true) →
        ∃ e, iterdiscs_db_ids fs db_dir = .error e) := by
  refine ⟨?_, ?_, ?_⟩
  · intro L hL
    have hL2 : iterAux fs db_dir (pjoin db_dir DISC_DIR) DISC_BUCKETS = .ok L := hL
    have hnof := iterAux_ok_nofail fs db_dir (pjoin db_dir DISC_DIR) DISC_BUCKETS L hL2
    have hok := iterAux_ok_of_nofail fs db_dir (pjoin db_dir DISC_DIR) DISC_BUCKETS hnof
    have hLeq := Except.ok.inj (hL2.symm.trans hok)
    subst hLeq
    refine ⟨rfl, ?_⟩
    intro f
    constructor
    · intro hf
      rw [List.mem_flatten] at hf
      obtain ⟨s, hs, hfs⟩ := hf
      rw [List.mem_map] at hs
      obtain ⟨b, hb, rfl⟩ := hs
      rw [List.mem_filter] at hfs
      obtain ⟨hmem, hcond⟩ := hfs
      simp only [Bool.and_eq_true, beq_iff_eq] at hcond
      exact ⟨b, hb, hmem, hcond.1, hcond.2⟩
    · rintro ⟨b, hb, hmem, hval, hbuck⟩
      rw [List.mem_flatten]
      refine ⟨_, List.mem_map.mpr ⟨b, hb, rfl⟩, ?_⟩
      rw [List.mem_filter]
      exact ⟨hmem, by simp [hval, hbuck]⟩
  · intro e he
    exact iterAux_error_shape fs db_dir (pjoin db_dir DISC_DIR) DISC_BUCKETS e he
  · intro hex
    exact iterAux_fail_gives_error fs db_dir (pjoin db_dir DISC_DIR) DISC_BUCKETS hex

/-- Valid store holding, inside bucket 0, one disc directory with a valid id
    in its own bucket, one misplaced valid id belonging to bucket a, and one
    junk entry; for the C8 witness. -/
def fsIterA : FS :=
  ⟨[['d', 'b'], pjoin ['d', 'b'] DISC_DIR]
      ++ DISC_BUCKETS.map (pjoin (pjoin ['d', 'b'] DISC_DIR))
      ++ [pjoin (pjoin (pjoin ['d', 'b'] DISC_DIR) ['0']) (List.replicate 40 '0'),
          pjoin (pjoin (pjoin ['d', 'b'] DISC_DIR) ['0']) ('a' :: List.replicate 39 '0'),
          pjoin (pjoin (pjoin ['d', 'b'] DISC_DIR) ['0']) ['j', 'u', 'n', 'k']],
   [], [], []⟩

/-- Store where listing bucket 3 raises OSError; for the C8 witness. -/
def fsIterB : FS := ⟨[], [], [], [pjoin (pjoin ['d', 'b'] DISC_DIR) ['3']]⟩

/-- Witness for C8: the enumeration of fsIterA yields exactly the well-placed
    valid id, and the injected listing failure on bucket 3 of fsIterB fails
    the enumeration naming that bucket. -/
theorem iterdiscs_spec_w :
    (List.replicate 40 '0' ∈ [List.replicate 40 '0']
        ↔ ∃ b, b ∈ DISC_BUCKETS
            ∧ List.replicate 40 '0' ∈ childNames fsIterA (pjoin (pjoin ['d', 'b'] DISC_DIR) b)
            ∧ is_valid_db_id (List.replicate 40 '0') = true
            ∧ bucket_for_db_id (List.replicate 40 '0') = b)
    ∧ (∃ b, b ∈ DISC_BUCKETS
        ∧ fsIterB.failList.contains (pjoin (pjoin ['d', 'b'] DISC_DIR) b) = true
        ∧ (Err.dbError ['d', 'b'] .fromExc (some ['3']))
            = .dbError ['d', 'b'] .fromExc (some b))
    ∧ (∃ e, iterdiscs_db_ids fsIterB ['d', 'b'] = .error e) :=
  ⟨((iterdiscs_spec fsIterA ['d', 'b']).1 [List.replicate 40 '0'] (by decide)).2
      (List.replicate 40 '0'),
   (iterdiscs_spec fsIterB ['d', 'b']).2.1 (.dbError ['d', 'b'] .fromExc (some ['3'])) (by decide),
   (iterdiscs_spec fsIterB ['d', 'b']).2.2 ⟨['3'], by decide⟩⟩

end Codplayer
